import Mathlib

/-!
Shallow embedding of the LearnLens backend (TypeScript/Express/Prisma) in
Lean 4, together with theorems about its JSON-repair heuristic, its
content-moderation gate, and its route handlers.

Strings from the TypeScript code are modelled as `List Char`; machine
`number`s that only count list elements are modelled as `Nat`; database
tables are modelled as Lean lists with the Prisma operations (`findFirst`,
`findUnique`, `findMany`, `create`, `update`, `delete`, `deleteMany`)
translated to the corresponding list operations.  External library calls
(the OpenAI-compatible chat completion, `JSON.parse`, `multer`) are
modelled as explicit parameters or as the behaviour their configuration
prescribes; a doc comment on each definition says which source function it
embeds.
-/

namespace LearnLens

/-- Character class of the JavaScript whitespace set used by `String.prototype.trim`
and by the regex class `\s` (space, tab, LF, VT, FF, CR, NBSP, and the
Unicode space separators). -/
def jsWhitespace (c : Char) : Bool :=
  let n := c.toNat
  n = 32 || n = 9 || n = 10 || n = 11 || n = 12 || n = 13 ||
  n = 0xa0 || n = 0x1680 || (0x2000 ≤ n && n ≤ 0x200a) ||
  n = 0x2028 || n = 0x2029 || n = 0x202f || n = 0x205f || n = 0x3000 || n = 0xfeff

/-- Model of JavaScript `String.prototype.trim`: drop whitespace from both ends. -/
def jsTrim (l : List Char) : List Char :=
  ((l.dropWhile jsWhitespace).reverse.dropWhile jsWhitespace).reverse

/-- Model of `(s.match(/c/g) || []).length` for a single literal character `c`:
the number of occurrences of `c` in the string. -/
def countChar (c : Char) (l : List Char) : Nat := l.count c

/-- Leftmost-match removal for an end-anchored regex `r$`: JavaScript
`s.replace(r, '')` with `r` anchored at the end of the string removes the
longest suffix of `s` in the language of `r` (the match starting at the
leftmost possible index); when no suffix matches, the string is unchanged.
`sfx` decides membership of a suffix in the language of `r`. -/
def replaceEndAnchored (sfx : List Char → Bool) (l : List Char) : List Char :=
  match (List.range (l.length + 1)).find? (fun i => sfx (l.drop i)) with
  | some i => l.take i
  | none => l

/-- Suffix language of the regex `,\s*"[^"]*$` from `fixTruncatedJson`
("remove incomplete key"): a comma, whitespace, a double quote, then no
further double quote. -/
def incompleteKeySfx (l : List Char) : Bool :=
  match l with
  | ',' :: t =>
    match t.dropWhile jsWhitespace with
    | '"' :: u => !u.contains '"'
    | _ => false
  | _ => false

/-- Suffix language of the regex `,\s*\{[^}]*$` from `fixTruncatedJson`
("remove incomplete object at end"): a comma, whitespace, an opening brace,
then no further closing brace. -/
def incompleteObjSfx (l : List Char) : Bool :=
  match l with
  | ',' :: t =>
    match t.dropWhile jsWhitespace with
    | '{' :: u => !u.contains '}'
    | _ => false
  | _ => false

/-- Suffix language of the regex `,\s*$` from `fixTruncatedJson`
("remove trailing comma"): a comma followed only by whitespace. -/
def trailingCommaSfx (l : List Char) : Bool :=
  match l with
  | ',' :: t => t.all jsWhitespace
  | _ => false

/-- The three sequential `replace` calls of `fixTruncatedJson` that remove a
trailing incomplete fragment before closers are appended. -/
def stripFragments (l : List Char) : List Char :=
  replaceEndAnchored trailingCommaSfx
    (replaceEndAnchored incompleteObjSfx
      (replaceEndAnchored incompleteKeySfx l))

/-- Embedding of `fixTruncatedJson` (src/unnamed/part_001, lines 964-998):
trim the input; if the counts of `{`/`}` or `[`/`]` differ, strip the three
trailing-fragment patterns, then append the missing `]` closers followed by
the missing `}` closers.  The JavaScript `for` loops run zero times when the
difference is negative, which truncated `Nat` subtraction captures exactly. -/
def fixTruncatedJson (jsonStr : List Char) : List Char :=
  let fixed := jsTrim jsonStr
  let openBraces := countChar '{' fixed
  let closeBraces := countChar '}' fixed
  let openBrackets := countChar '[' fixed
  let closeBrackets := countChar ']' fixed
  if openBraces ≠ closeBraces ∨ openBrackets ≠ closeBrackets then
    let stripped := stripFragments fixed
    let newOpenBrackets := countChar '[' stripped
    let newCloseBrackets := countChar ']' stripped
    let newOpenBraces := countChar '{' stripped
    let newCloseBraces := countChar '}' stripped
    stripped
      ++ List.replicate (newOpenBrackets - newCloseBrackets) ']'
      ++ List.replicate (newOpenBraces - newCloseBraces) '}'
  else
    fixed

/-- Dropping a prefix of elements satisfying `p` does not change the count of a
character that does not satisfy `p`. -/
theorem countChar_dropWhile (p : Char → Bool) (c : Char) (l : List Char)
    (h : p c = false) : (l.dropWhile p).count c = l.count c := by
  induction l with
  | nil => rfl
  | cons a t ih =>
    rw [List.dropWhile_cons]
    by_cases ha : p a = true
    · have hac : (a == c) = false := by
        cases hbe : a == c with
        | false => rfl
        | true =>
          have : a = c := by simpa using hbe
          rw [this, h] at ha
          exact absurd ha (by simp)
      rw [if_pos ha, ih, List.count_cons, hac]
      simp
    · rw [if_neg ha]

/-- Trimming JavaScript whitespace does not change the count of a
non-whitespace character. -/
theorem countChar_jsTrim (c : Char) (l : List Char) (h : jsWhitespace c = false) :
    countChar c (jsTrim l) = countChar c l := by
  unfold countChar jsTrim
  rw [List.count_reverse, countChar_dropWhile _ _ _ h, List.count_reverse,
    countChar_dropWhile _ _ _ h]

/-- C2: on input whose `{`/`}` counts agree and whose `[`/`]` counts agree,
`fixTruncatedJson` returns the input unchanged except for trimming leading
and trailing whitespace. -/
theorem fixTruncatedJson_balanced_eq_trim (s : List Char)
    (h1 : countChar '{' s = countChar '}' s)
    (h2 : countChar '[' s = countChar ']' s) :
    fixTruncatedJson s = jsTrim s := by
  unfold fixTruncatedJson
  have e1 : countChar '{' (jsTrim s) = countChar '}' (jsTrim s) := by
    rw [countChar_jsTrim _ _ (by decide), countChar_jsTrim _ _ (by decide), h1]
  have e2 : countChar '[' (jsTrim s) = countChar ']' (jsTrim s) := by
    rw [countChar_jsTrim _ _ (by decide), countChar_jsTrim _ _ (by decide), h2]
  rw [if_neg]
  push_neg
  exact ⟨e1, e2⟩

/-- Witness for C2 at the concrete input `"  {} "`. -/
theorem fixTruncatedJson_balanced_eq_trim_witness :
    countChar '{' "  \x7b\x7d ".toList = countChar '}' "  \x7b\x7d ".toList ∧
    countChar '[' "  \x7b\x7d ".toList = countChar ']' "  \x7b\x7d ".toList ∧
    fixTruncatedJson "  \x7b\x7d ".toList = jsTrim "  \x7b\x7d ".toList :=
  ⟨by decide, by decide,
    fixTruncatedJson_balanced_eq_trim _ (by decide) (by decide)⟩

/-- C1 counterexample: on the input `"}"` the repair returns `"}"` itself,
whose `{` and `}` counts differ — the output is not bracket-balanced. -/
theorem fixTruncatedJson_not_always_balanced :
    ¬ (countChar '{' (fixTruncatedJson ['}']) =
         countChar '}' (fixTruncatedJson ['}']) ∧
       countChar '[' (fixTruncatedJson ['}']) =
         countChar ']' (fixTruncatedJson ['}'])) := by decide

/-- C1 amended: whenever the string left after trimming and removing the
trailing incomplete fragments has no excess `}` over `{` and no excess `]`
over `[`, the output of `fixTruncatedJson` has an equal number of `{` and
`}` and an equal number of `[` and `]`. -/
theorem fixTruncatedJson_balances (s : List Char)
    (hb : countChar '}' (stripFragments (jsTrim s)) ≤
            countChar '{' (stripFragments (jsTrim s)))
    (hk : countChar ']' (stripFragments (jsTrim s)) ≤
            countChar '[' (stripFragments (jsTrim s))) :
    countChar '{' (fixTruncatedJson s) = countChar '}' (fixTruncatedJson s) ∧
    countChar '[' (fixTruncatedJson s) = countChar ']' (fixTruncatedJson s) := by
  unfold fixTruncatedJson
  by_cases hcond : countChar '{' (jsTrim s) ≠ countChar '}' (jsTrim s) ∨
      countChar '[' (jsTrim s) ≠ countChar ']' (jsTrim s)
  · rw [if_pos hcond]
    unfold countChar at hb hk ⊢
    have hrep : ∀ (a b : Char) (n : Nat), a ≠ b →
        List.count a (List.replicate n b) = 0 := by
      intro a b n hab
      rw [List.count_replicate]
      simp [if_neg, (by simpa [eq_comm] using hab : ¬ (b = a))]
    constructor
    · rw [List.count_append, List.count_append, List.count_append,
        List.count_append, hrep '{' ']' _ (by decide),
        hrep '{' '}' _ (by decide), hrep '}' ']' _ (by decide),
        List.count_replicate]
      simp only [beq_self_eq_true, if_pos]
      omega
    · rw [List.count_append, List.count_append, List.count_append,
        List.count_append, hrep '[' ']' _ (by decide),
        hrep '[' '}' _ (by decide), hrep ']' '}' _ (by decide),
        List.count_replicate]
      simp only [beq_self_eq_true, if_pos]
      omega
  · rw [if_neg hcond]
    push_neg at hcond
    exact hcond

/-- Witness for the amended C1 at the truncated input `"{\"a\": [1, 2"`. -/
theorem fixTruncatedJson_balances_witness :
    (countChar '}' (stripFragments (jsTrim "\x7b\"a\": [1, 2".toList)) ≤
       countChar '{' (stripFragments (jsTrim "\x7b\"a\": [1, 2".toList))) ∧
    (countChar ']' (stripFragments (jsTrim "\x7b\"a\": [1, 2".toList)) ≤
       countChar '[' (stripFragments (jsTrim "\x7b\"a\": [1, 2".toList))) ∧
    (countChar '{' (fixTruncatedJson "\x7b\"a\": [1, 2".toList) =
       countChar '}' (fixTruncatedJson "\x7b\"a\": [1, 2".toList) ∧
     countChar '[' (fixTruncatedJson "\x7b\"a\": [1, 2".toList) =
       countChar ']' (fixTruncatedJson "\x7b\"a\": [1, 2".toList)) :=
  ⟨by decide, by decide, fixTruncatedJson_balances _ (by decide) (by decide)⟩

/-- Outcome of one call to the OpenAI-compatible chat completion endpoint, as
observed by the calling code: either the promise resolves and
`response.choices[0]?.message?.content` is the given optional string, or the
call throws. -/
inductive LLMResult where
  | ok (content : Option (List Char))
  | err
  deriving Repr, DecidableEq

/-- Return value of `isContentSafe`: the `{ safe, reason? }` object. -/
structure ModerationVerdict where
  safe : Bool
  reason : Option (List Char)
  deriving Repr, DecidableEq

/-- Index of the leftmost occurrence of `pat` in `l`, if any. -/
def firstOccurIdx (pat l : List Char) : Option Nat :=
  (List.range (l.length + 1)).find? (fun i => pat.isPrefixOf (l.drop i))

/-- Model of JavaScript `s.replace(pat, '')` for a literal (non-regex) pattern:
remove the leftmost occurrence of `pat`, or return `s` unchanged when `pat`
does not occur. -/
def replaceFirst (pat l : List Char) : List Char :=
  match firstOccurIdx pat l with
  | some i => l.take i ++ l.drop (i + pat.length)
  | none => l

/-- Model of `response.choices[0]?.message?.content?.trim() || "SAFE"` in
`isContentSafe`: a missing reply, or one trimming to the empty string, is
replaced by `"SAFE"`. -/
def normalizeReply (reply : Option (List Char)) : List Char :=
  let t := jsTrim (reply.getD [])
  if t = [] then "SAFE".toList else t

/-- Embedding of `isContentSafe` (src/unnamed/part_001, lines 1187-1229).  The
`content` argument only shapes the prompt sent to the model; the verdict the
function computes depends on the reply `r`.  On a thrown LLM call the
`catch` arm fails closed. -/
def isContentSafe (content : List Char) (r : LLMResult) : ModerationVerdict :=
  match r with
  | .err => ⟨false, some "Content moderation service unavailable.".toList⟩
  | .ok reply =>
    let result := normalizeReply reply
    if "UNSAFE".toList.isPrefixOf result then
      ⟨false, some (jsTrim (replaceFirst "UNSAFE:".toList result))⟩
    else
      ⟨true, none⟩

/-- A pattern is a prefix of itself followed by anything. -/
theorem isPrefixOf_append_self (pat rest : List Char) :
    pat.isPrefixOf (pat ++ rest) = true := by
  induction pat with
  | nil => simp [List.isPrefixOf]
  | cons a t ih => simp [List.isPrefixOf, ih]

/-- When `pat` is a prefix of `l`, the leftmost occurrence is at index 0 and
`replaceFirst` removes exactly that prefix. -/
theorem replaceFirst_of_isPrefixOf (pat l : List Char)
    (h : pat.isPrefixOf l = true) : replaceFirst pat l = l.drop pat.length := by
  unfold replaceFirst firstOccurIdx
  rw [List.range_succ_eq_map, List.find?_cons_of_pos _ (by simpa using h)]
  simp

/-- C3: the moderation gate returns `safe = true` exactly when the trimmed
reply does not start with `UNSAFE` (a missing reply, or one trimming to the
empty string, is treated as `SAFE`); a reply whose trim is `UNSAFE:` followed
by a remainder yields `safe = false` with the trimmed remainder as reason;
and a thrown LLM call fails closed with reason
`Content moderation service unavailable.` — every outcome of the call is
mapped to a verdict, so the function never throws. -/
theorem isContentSafe_spec (content : List Char) :
    (isContentSafe content .err =
       ⟨false, some "Content moderation service unavailable.".toList⟩) ∧
    (isContentSafe content (.ok none) = ⟨true, none⟩) ∧
    (∀ s, (isContentSafe content (.ok (some s))).safe = true ↔
       "UNSAFE".toList.isPrefixOf (jsTrim s) = false) ∧
    (∀ s rest, jsTrim s = "UNSAFE:".toList ++ rest →
       isContentSafe content (.ok (some s)) = ⟨false, some (jsTrim rest)⟩) := by
  have hok : ∀ reply, isContentSafe content (.ok reply) =
      (if "UNSAFE".toList.isPrefixOf (normalizeReply reply) = true then
        ⟨false, some (jsTrim (replaceFirst "UNSAFE:".toList (normalizeReply reply)))⟩
      else ⟨true, none⟩) := fun _ => rfl
  refine ⟨rfl, rfl, ?_, ?_⟩
  · intro s
    rw [hok]
    by_cases ht : jsTrim s = []
    · have hn : normalizeReply (some s) = "SAFE".toList := by
        simp [normalizeReply, ht]
      rw [hn, ht]
      decide
    · have hn : normalizeReply (some s) = jsTrim s := by
        simp [normalizeReply, ht]
      rw [hn]
      cases hp : "UNSAFE".toList.isPrefixOf (jsTrim s) with
      | true => simp
      | false => simp
  · intro s rest h
    rw [hok]
    have hne : jsTrim s ≠ [] := by rw [h]; simp
    have hn : normalizeReply (some s) = jsTrim s := by
      simp [normalizeReply, hne]
    have hsplit : "UNSAFE:".toList ++ rest = "UNSAFE".toList ++ (':' :: rest) := rfl
    rw [hn, h]
    rw [if_pos (by rw [hsplit]; exact isPrefixOf_append_self _ _)]
    rw [replaceFirst_of_isPrefixOf _ _ (isPrefixOf_append_self _ _)]
    rw [List.drop_left]

/-- Witness for C3 at the content `"x"`, the reply `"  UNSAFE: Sexual content"`,
and the remainder `" Sexual content"`. -/
theorem isContentSafe_spec_witness :
    (isContentSafe "x".toList .err =
       ⟨false, some "Content moderation service unavailable.".toList⟩) ∧
    ((isContentSafe "x".toList (.ok (some "  SAFE".toList))).safe = true ↔
       "UNSAFE".toList.isPrefixOf (jsTrim "  SAFE".toList) = false) ∧
    (jsTrim "  UNSAFE: Sexual content".toList =
       "UNSAFE:".toList ++ " Sexual content".toList) ∧
    (isContentSafe "x".toList (.ok (some "  UNSAFE: Sexual content".toList)) =
       ⟨false, some (jsTrim " Sexual content".toList)⟩) :=
  ⟨(isContentSafe_spec "x".toList).1,
   (isContentSafe_spec "x".toList).2.2.1 _,
   by decide,
   (isContentSafe_spec "x".toList).2.2.2 _ _ (by decide)⟩

/-- Embedding of the `QuizQuestion` interface (src/unnamed/part_001,
lines 956-962). -/
structure QuizQuestion where
  question : List Char
  options : List (List Char)
  answer : Int
  hint : Option (List Char)
  explanation : Option (List Char)
  deriving Repr, DecidableEq

/-- Shape of the object `generateQuiz` reads off `JSON.parse`: only its
optional `questions` field is consumed (`parsed.questions || []`). -/
structure ParsedQuizDoc where
  questions : Option (List QuizQuestion)
  deriving Repr, DecidableEq

/-- Index of the last `}` in the string, if any. -/
def lastCloseBraceIdx (l : List Char) : Option Nat :=
  (l.reverse.findIdx? (fun c => c = '}')).map (fun k => l.length - 1 - k)

/-- Model of `text.match(/\{[\s\S]*\}/)`: with a greedy `[\s\S]*`, the regex
matches from the first `{` of the string to the last `}`, provided that `}`
lies after that `{`; otherwise there is no match. -/
def braceMatch (l : List Char) : Option (List Char) :=
  match l.findIdx? (fun c => c = '{'), lastCloseBraceIdx l with
  | some i, some j => if i < j then some ((l.take (j + 1)).drop i) else none
  | _, _ => none

/-- Model of `response.choices[0]?.message?.content || "{}"` in
`generateQuiz`: a missing or empty reply becomes the string `"{}"`. -/
def quizResponseText (content : Option (List Char)) : List Char :=
  match content with
  | none => "\x7b\x7d".toList
  | some t => if t = [] then "\x7b\x7d".toList else t

/-- Embedding of `generateQuiz` (src/unnamed/part_001, lines 1000-1053).  The
LLM call and `JSON.parse` are external: the reply outcome is the argument
`r`, and `parseJson` maps a string to the parsed object (`none` when
`JSON.parse` throws).  The outer `catch` arms map a thrown LLM call, and a
repair whose reparse still throws, to the empty list. -/
def generateQuiz (parseJson : List Char → Option ParsedQuizDoc)
    (r : LLMResult) : List QuizQuestion :=
  match r with
  | .err => []
  | .ok content =>
    let text := quizResponseText content
    match braceMatch text with
    | none => []
    | some jsonStr =>
      match parseJson jsonStr with
      | some parsed => parsed.questions.getD []
      | none =>
        match parseJson (fixTruncatedJson jsonStr) with
        | some parsed => parsed.questions.getD []
        | none => []

/-- C10: `generateQuiz` is total with the empty list as its error value — a
thrown LLM call, a reply containing no brace-delimited substring, and a
brace-delimited substring that fails to parse even after
`fixTruncatedJson` repair all yield `[]` rather than an exception; and
whenever the brace-delimited substring parses, directly or after repair, the
result is the parsed object's `questions` field, defaulting to `[]` when
that field is absent. -/
theorem generateQuiz_spec (parseJson : List Char → Option ParsedQuizDoc) :
    (generateQuiz parseJson .err = []) ∧
    (∀ content, braceMatch (quizResponseText content) = none →
       generateQuiz parseJson (.ok content) = []) ∧
    (∀ content j p, braceMatch (quizResponseText content) = some j →
       parseJson j = some p →
       generateQuiz parseJson (.ok content) = p.questions.getD []) ∧
    (∀ content j p, braceMatch (quizResponseText content) = some j →
       parseJson j = none → parseJson (fixTruncatedJson j) = some p →
       generateQuiz parseJson (.ok content) = p.questions.getD []) ∧
    (∀ content j, braceMatch (quizResponseText content) = some j →
       parseJson j = none → parseJson (fixTruncatedJson j) = none →
       generateQuiz parseJson (.ok content) = []) := by
  refine ⟨rfl, ?_, ?_, ?_, ?_⟩
  · intro content h
    simp only [generateQuiz]
    rw [h]
  · intro content j p h hp
    simp only [generateQuiz]
    rw [h]
    dsimp only
    rw [hp]
  · intro content j p h hp hq
    simp only [generateQuiz]
    rw [h]
    dsimp only
    rw [hp]
    dsimp only
    rw [hq]
  · intro content j h hp hq
    simp only [generateQuiz]
    rw [h]
    dsimp only
    rw [hp]
    dsimp only
    rw [hq]

/-- Concrete parse function used by the C10 witness: it parses exactly the
two-character string `"{}"`, to an object with no `questions` field. -/
def emptyObjParse (l : List Char) : Option ParsedQuizDoc :=
  if l = "\x7b\x7d".toList then some ⟨none⟩ else none

/-- Witness for C10: a reply with no braces yields `[]`; a missing reply is
normalised to `"{}"`, which parses to an object without `questions`, also
yielding `[]`. -/
theorem generateQuiz_spec_witness :
    (braceMatch (quizResponseText (some "no json at all".toList)) = none ∧
       generateQuiz emptyObjParse (.ok (some "no json at all".toList)) = []) ∧
    (braceMatch (quizResponseText none) = some "\x7b\x7d".toList ∧
       emptyObjParse "\x7b\x7d".toList = some ⟨none⟩ ∧
       generateQuiz emptyObjParse (.ok none) =
         (ParsedQuizDoc.mk none).questions.getD []) :=
  ⟨⟨by decide,
     (generateQuiz_spec emptyObjParse).2.1 (some "no json at all".toList)
       (by decide)⟩,
   ⟨by decide, by decide,
     (generateQuiz_spec emptyObjParse).2.2.1 none "\x7b\x7d".toList ⟨none⟩
       (by decide) (by decide)⟩⟩

/-- Row of the `materials` table, with the columns the modelled handlers read
or write (timestamps other than `publishedAt` and the AI-cache columns are
omitted; `description` and `content` are nullable). -/
structure Material where
  id : String
  userId : String
  title : String
  description : Option String
  content : Option String
  type : String
  isPublic : Bool
  publishedAt : Option Nat
  deriving Repr, DecidableEq

/-- Row of the `ExploreContent` table as used by publish and fork. -/
structure ExploreContent where
  id : String
  title : String
  description : String
  content : String
  type : String
  userId : String
  originalMaterialId : String
  forksCount : Nat
  updatedAt : Nat
  deriving Repr, DecidableEq

/-- Database state seen by the publish and fork handlers. -/
structure PublishDB where
  materials : List Material
  explores : List ExploreContent
  deriving Repr, DecidableEq

/-- Status, error body and resulting database of one handler run. -/
structure HandlerResult where
  status : Nat
  error : Option String
  db : PublishDB
  deriving Repr, DecidableEq

/-- JavaScript `a || b` on an optional string: a missing or empty string is
falsy and falls through to the default. -/
def jsOr (o : Option String) (d : String) : String :=
  match o with
  | none => d
  | some t => if t = "" then d else t

/-- The string `Title: ...\nDescription: ...\nContent: ...` that the publish
handler sends to `isContentSafe` (src/src/routes/materials.ts, lines
639-642), with the body title/description overriding the material's. -/
def combinedContent (m : Material) (bodyTitle bodyDesc : Option String) : String :=
  "Title: " ++ jsOr bodyTitle m.title ++
  "\nDescription: " ++ jsOr bodyDesc (jsOr m.description "") ++
  "\nContent: " ++ jsOr m.content ""

/-- Embedding of `POST /api/materials/:id/publish` (src/src/routes/materials.ts,
lines 622-709).  `findFirst` is `List.find?`; `exploreContent.update` and
`material.update` map over the table replacing the row with the matching
`id`; `exploreContent.create` appends a row whose generated id is the
parameter `newExploreId` and whose `forksCount` starts at the schema default
`0`.  The moderation verdict is computed by the embedded `isContentSafe`
from the reply outcome `modReply`. -/
def publish (db : PublishDB) (uid reqId : String)
    (bodyTitle bodyDesc bodyContent : Option String)
    (modReply : LLMResult) (newExploreId : String) (now : Nat) : HandlerResult :=
  match db.materials.find? (fun m => m.id == reqId && m.userId == uid) with
  | none => ⟨404, some "Material not found", db⟩
  | some m =>
    let moderation := isContentSafe (combinedContent m bodyTitle bodyDesc).toList modReply
    if !moderation.safe then ⟨400, some "Content Moderation Failed", db⟩
    else
      let publishTitle := jsOr bodyTitle m.title
      let publishDesc := jsOr bodyDesc (jsOr m.description "")
      let publishContent :=
        match bodyContent with
        | some c => c
        | none => jsOr m.content ""
      let explores' :=
        match db.explores.find? (fun e => e.originalMaterialId == m.id) with
        | some e =>
          db.explores.map (fun x =>
            if x.id == e.id then
              { x with title := publishTitle, description := publishDesc,
                       content := publishContent, updatedAt := now }
            else x)
        | none =>
          db.explores ++
            [⟨newExploreId, publishTitle, publishDesc, publishContent,
              m.type, uid, m.id, 0, now⟩]
      let materials' :=
        db.materials.map (fun x =>
          if x.id == m.id then
            { x with isPublic := true, publishedAt := some now }
          else x)
      ⟨200, none, ⟨materials', explores'⟩⟩

/-- Embedding of `POST /api/explore/:id/fork` (src/src/routes/explore.ts,
lines 277-316): look the snapshot up by primary key, create a material
copying its fields with `" (Fork)"` appended to the title and
`isPublic: false`, then increment the snapshot's `forksCount`.  The created
material's generated id is the parameter `newMaterialId`. -/
def fork (db : PublishDB) (uid reqId newMaterialId : String) : HandlerResult :=
  match db.explores.find? (fun e => e.id == reqId) with
  | none => ⟨404, some "Content not found", db⟩
  | some e =>
    let newMaterial : Material :=
      ⟨newMaterialId, uid, e.title ++ " (Fork)", some e.description,
        some e.content, e.type, false, none⟩
    let materials' := db.materials ++ [newMaterial]
    let explores' :=
      db.explores.map (fun x =>
        if x.id == e.id then { x with forksCount := x.forksCount + 1 } else x)
    ⟨200, none, ⟨materials', explores'⟩⟩

/-- C4: when the material is found and the moderation gate reports the
combined title/description/content as unsafe, publish responds 400 with
error `Content Moderation Failed` and the database is returned unchanged —
no `ExploreContent` snapshot is created or updated and the material's
`isPublic`/`publishedAt` fields keep their old values. -/
theorem publish_moderation_failure_atomic (db : PublishDB)
    (uid reqId : String) (bodyTitle bodyDesc bodyContent : Option String)
    (modReply : LLMResult) (newExploreId : String) (now : Nat) (m : Material)
    (hm : db.materials.find? (fun x => x.id == reqId && x.userId == uid) = some m)
    (hu : (isContentSafe (combinedContent m bodyTitle bodyDesc).toList
            modReply).safe = false) :
    publish db uid reqId bodyTitle bodyDesc bodyContent modReply newExploreId now =
      ⟨400, some "Content Moderation Failed", db⟩ := by
  simp only [publish]
  rw [hm]
  dsimp only
  rw [hu]
  simp

/-- Witness for C4: a one-material database, a body with no overrides, and a
moderation reply `"UNSAFE: Sexual content"`. -/
theorem publish_moderation_failure_atomic_witness :
    (PublishDB.mk [⟨"m1", "u1", "T", none, some "body", "document", false, none⟩]
        []).materials.find?
        (fun x => x.id == "m1" && x.userId == "u1") =
      some ⟨"m1", "u1", "T", none, some "body", "document", false, none⟩ ∧
    (isContentSafe
        (combinedContent ⟨"m1", "u1", "T", none, some "body", "document", false, none⟩
          none none).toList
        (.ok (some "UNSAFE: Sexual content".toList))).safe = false ∧
    publish ⟨[⟨"m1", "u1", "T", none, some "body", "document", false, none⟩], []⟩
        "u1" "m1" none none none (.ok (some "UNSAFE: Sexual content".toList))
        "e1" 7 =
      ⟨400, some "Content Moderation Failed",
        ⟨[⟨"m1", "u1", "T", none, some "body", "document", false, none⟩], []⟩⟩ :=
  ⟨by decide, by decide,
    publish_moderation_failure_atomic
      ⟨[⟨"m1", "u1", "T", none, some "body", "document", false, none⟩], []⟩
      "u1" "m1" none none none (.ok (some "UNSAFE: Sexual content".toList))
      "e1" 7 ⟨"m1", "u1", "T", none, some "body", "document", false, none⟩
      (by decide) (by decide)⟩

/-- When a table update does not change the key a search predicate looks at,
searching the updated table finds the updated image of the old result. -/
theorem find?_map_of_pred_eq {α : Type} (p : α → Bool) (f : α → α) (l : List α)
    (h : ∀ x, p (f x) = p x) : (l.map f).find? p = (l.find? p).map f := by
  induction l with
  | nil => rfl
  | cons a t ih =>
    cases hpa : p a with
    | true =>
      rw [List.map_cons, List.find?_cons_of_pos _ (by rw [h]; exact hpa),
        List.find?_cons_of_pos _ hpa]
      rfl
    | false =>
      rw [List.map_cons, List.find?_cons_of_neg _ (by rw [h]; simp [hpa]),
        List.find?_cons_of_neg _ (by simp [hpa]), ih]

/-- Mapping a row update over a table keeps a projection the update does not
touch. -/
theorem map_map_proj {α β : Type} (f : α → α) (proj : α → β) (l : List α)
    (h : ∀ x, proj (f x) = proj x) :
    (l.map f).map proj = l.map proj := by
  induction l with
  | nil => rfl
  | cons a t ih => simp [h, ih]

/-- C7: forking an existing explore snapshot responds 200, appends exactly one
new material — owned by the requester, titled with `" (Fork)"` appended,
copying description, content and type, with `isPublic = false` — and bumps
that snapshot's `forksCount` by exactly one, leaving every other snapshot
untouched and creating or deleting no snapshot; forking a missing id
responds 404 and changes nothing. -/
theorem fork_spec (db : PublishDB) (uid reqId newMaterialId : String) :
    (db.explores.find? (fun e => e.id == reqId) = none →
       fork db uid reqId newMaterialId = ⟨404, some "Content not found", db⟩) ∧
    (∀ e, db.explores.find? (fun x => x.id == reqId) = some e →
       (fork db uid reqId newMaterialId).status = 200 ∧
       (fork db uid reqId newMaterialId).db.materials =
         db.materials ++
           [⟨newMaterialId, uid, e.title ++ " (Fork)", some e.description,
             some e.content, e.type, false, none⟩] ∧
       (fork db uid reqId newMaterialId).db.explores.find?
           (fun x => x.id == reqId) =
         some { e with forksCount := e.forksCount + 1 } ∧
       (∀ x ∈ db.explores, x.id ≠ reqId →
          x ∈ (fork db uid reqId newMaterialId).db.explores) ∧
       (fork db uid reqId newMaterialId).db.explores.length =
         db.explores.length) := by
  constructor
  · intro h
    simp only [fork]
    rw [h]
  · intro e he
    have heq : e.id = reqId := by simpa using List.find?_some he
    simp only [fork]
    rw [he]
    dsimp only
    refine ⟨rfl, rfl, ?_, ?_, by simp⟩
    · rw [find?_map_of_pred_eq _ _ _
        (fun x => by cases c : x.id == e.id <;> simp [c])]
      rw [he]
      simp
    · intro x hx hne
      refine List.mem_map.mpr ⟨x, hx, ?_⟩
      rw [if_neg]
      simp only [beq_iff_eq, heq]
      exact hne

/-- Witness for C7: a single snapshot `e1` is forked by user `u2`; the missing
id `zzz` is also exercised. -/
theorem fork_spec_witness :
    ((PublishDB.mk [] [⟨"e1", "T", "D", "C", "document", "u1", "m1", 3, 0⟩]).explores.find?
        (fun x => x.id == "e1") =
      some ⟨"e1", "T", "D", "C", "document", "u1", "m1", 3, 0⟩) ∧
    ((fork ⟨[], [⟨"e1", "T", "D", "C", "document", "u1", "m1", 3, 0⟩]⟩
        "u2" "e1" "m9").status = 200 ∧
     (fork ⟨[], [⟨"e1", "T", "D", "C", "document", "u1", "m1", 3, 0⟩]⟩
        "u2" "e1" "m9").db.materials =
       [] ++ [⟨"m9", "u2", "T (Fork)", some "D", some "C", "document", false, none⟩] ∧
     (fork ⟨[], [⟨"e1", "T", "D", "C", "document", "u1", "m1", 3, 0⟩]⟩
        "u2" "e1" "m9").db.explores.find? (fun x => x.id == "e1") =
       some ⟨"e1", "T", "D", "C", "document", "u1", "m1", 4, 0⟩ ∧
     (∀ x ∈ (PublishDB.mk [] [⟨"e1", "T", "D", "C", "document", "u1", "m1", 3, 0⟩]).explores,
        x.id ≠ "e1" →
          x ∈ (fork ⟨[], [⟨"e1", "T", "D", "C", "document", "u1", "m1", 3, 0⟩]⟩
            "u2" "e1" "m9").db.explores) ∧
     (fork ⟨[], [⟨"e1", "T", "D", "C", "document", "u1", "m1", 3, 0⟩]⟩
        "u2" "e1" "m9").db.explores.length =
       (PublishDB.mk [] [⟨"e1", "T", "D", "C", "document", "u1", "m1", 3, 0⟩]).explores.length) ∧
    (fork ⟨[], [⟨"e1", "T", "D", "C", "document", "u1", "m1", 3, 0⟩]⟩
        "u2" "zzz" "m9" =
      ⟨404, some "Content not found",
        ⟨[], [⟨"e1", "T", "D", "C", "document", "u1", "m1", 3, 0⟩]⟩⟩) :=
  ⟨by decide,
   (fork_spec ⟨[], [⟨"e1", "T", "D", "C", "document", "u1", "m1", 3, 0⟩]⟩
       "u2" "e1" "m9").2
     ⟨"e1", "T", "D", "C", "document", "u1", "m1", 3, 0⟩ (by decide),
   (fork_spec ⟨[], [⟨"e1", "T", "D", "C", "document", "u1", "m1", 3, 0⟩]⟩
       "u2" "zzz" "m9").1 (by decide)⟩

/-- C8: publishing is an upsert of a single snapshot.  If before the call no
material has two `ExploreContent` rows (the `originalMaterialId` projection
of the table has no duplicates), the same holds after any publish; moreover
on a successful publish, when a snapshot for the material already exists the
table keeps its size (the snapshot is updated in place), and when none
exists the table grows by exactly one row. -/
theorem publish_upsert_spec (db : PublishDB) (uid reqId : String)
    (bodyTitle bodyDesc bodyContent : Option String) (modReply : LLMResult)
    (newExploreId : String) (now : Nat)
    (hnd : (db.explores.map (fun e => e.originalMaterialId)).Nodup) :
    (((publish db uid reqId bodyTitle bodyDesc bodyContent modReply
          newExploreId now).db.explores.map
        (fun e => e.originalMaterialId)).Nodup) ∧
    (∀ m, db.materials.find? (fun x => x.id == reqId && x.userId == uid) = some m →
      (isContentSafe (combinedContent m bodyTitle bodyDesc).toList
          modReply).safe = true →
      ((∀ e, db.explores.find? (fun x => x.originalMaterialId == m.id) = some e →
         (publish db uid reqId bodyTitle bodyDesc bodyContent modReply
             newExploreId now).db.explores.length = db.explores.length) ∧
       (db.explores.find? (fun x => x.originalMaterialId == m.id) = none →
         (publish db uid reqId bodyTitle bodyDesc bodyContent modReply
             newExploreId now).db.explores.length = db.explores.length + 1))) := by
  simp only [publish]
  cases hm : db.materials.find? (fun x => x.id == reqId && x.userId == uid) with
  | none =>
    refine ⟨hnd, ?_⟩
    intro m hm'
    exact absurd hm' (by simp)
  | some m0 =>
    dsimp only
    cases hsafe : (isContentSafe (combinedContent m0 bodyTitle bodyDesc).toList
        modReply).safe with
    | false =>
      rw [if_pos (show (!false) = true from rfl)]
      refine ⟨hnd, ?_⟩
      intro m hm' hs
      have hmm : m = m0 := by
        injection hm' with h
        exact h.symm
      rw [hmm, hsafe] at hs
      exact absurd hs (by simp)
    | true =>
      rw [if_neg (show ¬ ((!true) = true) from by simp)]
      cases hfe : db.explores.find? (fun x => x.originalMaterialId == m0.id) with
      | some e =>
        dsimp only
        constructor
        · rw [map_map_proj _ _ _
            (fun x => by cases c : x.id == e.id <;> simp [c])]
          exact hnd
        · intro m hm' hs
          have hmm : m = m0 := by
            injection hm' with h
            exact h.symm
          subst hmm
          refine ⟨fun e' he' => by simp, fun hnone => ?_⟩
          rw [hfe] at hnone
          exact absurd hnone (by simp)
      | none =>
        dsimp only
        constructor
        · rw [List.map_append, List.nodup_append]
          refine ⟨hnd, by simp, ?_⟩
          intro a ha hb
          simp only [List.map_cons, List.map_nil, List.mem_cons,
            List.not_mem_nil, or_false] at hb
          rcases List.mem_map.mp ha with ⟨x, hx, hxa⟩
          have := List.find?_eq_none.mp hfe x hx
          rw [hxa, hb] at this
          simp at this
        · intro m hm' hs
          have hmm : m = m0 := by
            injection hm' with h
            exact h.symm
          subst hmm
          constructor
          · intro e' he'
            rw [hfe] at he'
            exact absurd he' (by simp)
          · intro _
            simp

/-- Witness for C8: an empty explore table (trivially duplicate-free), one
owned material, and a `"SAFE"` moderation reply; the publish creates exactly
one snapshot. -/
theorem publish_upsert_spec_witness :
    (((PublishDB.mk [⟨"m1", "u1", "T", none, some "body", "document", false, none⟩]
          []).explores.map (fun e => e.originalMaterialId)).Nodup) ∧
    ((((publish ⟨[⟨"m1", "u1", "T", none, some "body", "document", false, none⟩], []⟩
          "u1" "m1" none none none (.ok (some "SAFE".toList)) "e1" 7).db.explores.map
        (fun e => e.originalMaterialId)).Nodup) ∧
    (∀ m, (PublishDB.mk [⟨"m1", "u1", "T", none, some "body", "document", false, none⟩]
            []).materials.find? (fun x => x.id == "m1" && x.userId == "u1") = some m →
      (isContentSafe (combinedContent m none none).toList
          (.ok (some "SAFE".toList))).safe = true →
      ((∀ e, (PublishDB.mk [⟨"m1", "u1", "T", none, some "body", "document", false, none⟩]
              []).explores.find? (fun x => x.originalMaterialId == m.id) = some e →
         (publish ⟨[⟨"m1", "u1", "T", none, some "body", "document", false, none⟩], []⟩
             "u1" "m1" none none none (.ok (some "SAFE".toList)) "e1"
             7).db.explores.length =
           (PublishDB.mk [⟨"m1", "u1", "T", none, some "body", "document", false, none⟩]
             []).explores.length) ∧
       ((PublishDB.mk [⟨"m1", "u1", "T", none, some "body", "document", false, none⟩]
            []).explores.find? (fun x => x.originalMaterialId == m.id) = none →
         (publish ⟨[⟨"m1", "u1", "T", none, some "body", "document", false, none⟩], []⟩
             "u1" "m1" none none none (.ok (some "SAFE".toList)) "e1"
             7).db.explores.length =
           (PublishDB.mk [⟨"m1", "u1", "T", none, some "body", "document", false, none⟩]
             []).explores.length + 1)))) :=
  ⟨by decide,
   publish_upsert_spec
     ⟨[⟨"m1", "u1", "T", none, some "body", "document", false, none⟩], []⟩
     "u1" "m1" none none none (.ok (some "SAFE".toList)) "e1" 7 (by decide)⟩

/-- Rows of the `ExploreLike` and `ExploreDislike` tables, identified by their
compound unique key `(userId, exploreContentId)` (row ids are immaterial:
under the unique constraint, deleting the found row by id deletes the one
row with that key). -/
structure ReactionDB where
  likes : List (String × String)
  dislikes : List (String × String)
  deriving Repr, DecidableEq

/-- The compound-key predicate `userId_exploreContentId` used by the like and
dislike handlers. -/
def reactKey (uid cid : String) (p : String × String) : Bool :=
  p.1 == uid && p.2 == cid

/-- Deletion of the row with the given compound key (Prisma
`delete({ where: { userId_exploreContentId } })`, with a missing row
ignored): keep every row whose key differs. -/
def removeReaction (uid cid : String) (l : List (String × String)) :
    List (String × String) :=
  l.filter (fun p => !reactKey uid cid p)

/-- Embedding of `POST /api/explore/:id/like` (src/src/routes/explore.ts,
lines 133-160): delete the user's dislike on the content if present
(errors ignored), then delete the existing like if there is one, else
create one.  Returns the new state and the `liked` flag of the response. -/
def likeToggle (db : ReactionDB) (uid cid : String) : ReactionDB × Bool :=
  let dislikes' := removeReaction uid cid db.dislikes
  match db.likes.find? (reactKey uid cid) with
  | some _ => (⟨removeReaction uid cid db.likes, dislikes'⟩, false)
  | none => (⟨db.likes ++ [(uid, cid)], dislikes'⟩, true)

/-- Embedding of `POST /api/explore/:id/dislike` (src/src/routes/explore.ts,
lines 162-190), symmetric to the like handler. -/
def dislikeToggle (db : ReactionDB) (uid cid : String) : ReactionDB × Bool :=
  let likes' := removeReaction uid cid db.likes
  match db.dislikes.find? (reactKey uid cid) with
  | some _ => (⟨likes', removeReaction uid cid db.dislikes⟩, false)
  | none => (⟨likes', db.dislikes ++ [(uid, cid)]⟩, true)

/-- One reaction request: a like toggle or a dislike toggle by a user on a
content item. -/
inductive ReactionOp where
  | like (uid cid : String)
  | dislike (uid cid : String)

/-- State transition of one reaction request. -/
def applyReaction (db : ReactionDB) (op : ReactionOp) : ReactionDB :=
  match op with
  | .like u c => (likeToggle db u c).1
  | .dislike u c => (dislikeToggle db u c).1

/-- No user holds both a like and a dislike on the same content. -/
def NoBothReactions (db : ReactionDB) : Prop :=
  ∀ p, p ∈ db.likes → p ∉ db.dislikes

/-- The key predicate holds exactly on the pair itself. -/
theorem reactKey_eq_iff (uid cid : String) (p : String × String) :
    reactKey uid cid p = true ↔ p = (uid, cid) := by
  cases p with
  | mk a b => simp [reactKey, Prod.ext_iff]

/-- A like toggle preserves the mutual-exclusion invariant. -/
theorem likeToggle_noBoth (db : ReactionDB) (uid cid : String)
    (h : NoBothReactions db) : NoBothReactions (likeToggle db uid cid).1 := by
  unfold likeToggle removeReaction
  cases hf : db.likes.find? (reactKey uid cid) with
  | some q =>
    intro p hp hq
    rw [List.mem_filter] at hp hq
    exact h p hp.1 hq.1
  | none =>
    intro p hp hq
    rw [List.mem_filter] at hq
    rcases List.mem_append.mp hp with hpl | hps
    · exact h p hpl hq.1
    · have : p = (uid, cid) := by simpa using hps
      rw [this] at hq
      have h2 := hq.2
      simp [reactKey] at h2

/-- A dislike toggle preserves the mutual-exclusion invariant. -/
theorem dislikeToggle_noBoth (db : ReactionDB) (uid cid : String)
    (h : NoBothReactions db) : NoBothReactions (dislikeToggle db uid cid).1 := by
  unfold dislikeToggle removeReaction
  cases hf : db.dislikes.find? (reactKey uid cid) with
  | some q =>
    intro p hp hq
    rw [List.mem_filter] at hp hq
    exact h p hp.1 hq.1
  | none =>
    intro p hp hq
    rw [List.mem_filter] at hp
    rcases List.mem_append.mp hq with hql | hqs
    · exact h p hp.1 hql
    · have : p = (uid, cid) := by simpa using hqs
      rw [this] at hp
      have h2 := hp.2
      simp [reactKey] at h2

/-- Membership after a keyed delete. -/
theorem mem_removeReaction (uid cid : String) (l : List (String × String))
    (p : String × String) :
    p ∈ removeReaction uid cid l ↔ p ∈ l ∧ reactKey uid cid p = false := by
  unfold removeReaction
  rw [List.mem_filter]
  simp

/-- Deleting a key that is not in the table leaves it unchanged. -/
theorem removeReaction_of_not_mem (uid cid : String) (l : List (String × String))
    (h : (uid, cid) ∉ l) : removeReaction uid cid l = l := by
  unfold removeReaction
  rw [List.filter_eq_self]
  intro p hp
  cases hk : reactKey uid cid p with
  | false => rfl
  | true => exact absurd (((reactKey_eq_iff uid cid p).mp hk) ▸ hp) h

/-- A keyed delete leaves no row with that key behind. -/
theorem find?_removeReaction (uid cid : String) (l : List (String × String)) :
    (removeReaction uid cid l).find? (reactKey uid cid) = none := by
  rw [List.find?_eq_none]
  intro p hp hk
  rw [mem_removeReaction] at hp
  rw [hk] at hp
  exact absurd hp.2 (by simp)

/-- A table in which the key does not occur is unchanged by the keyed delete;
derived form for a table on which `find?` fails. -/
theorem removeReaction_of_find?_none (uid cid : String)
    (l : List (String × String)) (h : l.find? (reactKey uid cid) = none) :
    removeReaction uid cid l = l := by
  apply removeReaction_of_not_mem
  intro hmem
  have := List.find?_eq_none.mp h (uid, cid) hmem
  simp [reactKey] at this

/-- Toggling like twice, from a state with no dislike on the key, restores
both tables up to membership. -/
theorem likeToggle_twice_restores (db : ReactionDB) (uid cid : String)
    (hd : (uid, cid) ∉ db.dislikes) :
    (∀ p, p ∈ ((likeToggle (likeToggle db uid cid).1 uid cid).1).likes ↔
       p ∈ db.likes) ∧
    (∀ p, p ∈ ((likeToggle (likeToggle db uid cid).1 uid cid).1).dislikes ↔
       p ∈ db.dislikes) := by
  have hdisF : removeReaction uid cid db.dislikes = db.dislikes :=
    removeReaction_of_not_mem uid cid db.dislikes hd
  cases hf : db.likes.find? (reactKey uid cid) with
  | some q =>
    have hq1 : q ∈ db.likes := List.mem_of_find?_eq_some hf
    have hq2 : q = (uid, cid) := (reactKey_eq_iff uid cid q).mp (List.find?_some hf)
    have h1 : (likeToggle db uid cid).1 =
        ⟨removeReaction uid cid db.likes, removeReaction uid cid db.dislikes⟩ := by
      unfold likeToggle
      rw [hf]
    have h2 : (likeToggle ⟨removeReaction uid cid db.likes,
        removeReaction uid cid db.dislikes⟩ uid cid).1 =
        ⟨removeReaction uid cid db.likes ++ [(uid, cid)],
          removeReaction uid cid (removeReaction uid cid db.dislikes)⟩ := by
      unfold likeToggle
      rw [find?_removeReaction]
    rw [h1, h2, hdisF, hdisF]
    refine ⟨?_, fun p => Iff.rfl⟩
    intro p
    rw [List.mem_append]
    constructor
    · rintro (hpf | hps)
      · exact ((mem_removeReaction uid cid db.likes p).mp hpf).1
      · have : p = (uid, cid) := by simpa using hps
        rw [this, ← hq2]
        exact hq1
    · intro hp
      by_cases hpe : p = (uid, cid)
      · right
        simp [hpe]
      · left
        rw [mem_removeReaction]
        refine ⟨hp, ?_⟩
        cases hk : reactKey uid cid p with
        | false => rfl
        | true => exact absurd ((reactKey_eq_iff uid cid p).mp hk) hpe
  | none =>
    have hallF : removeReaction uid cid db.likes = db.likes :=
      removeReaction_of_find?_none uid cid db.likes hf
    have h1 : (likeToggle db uid cid).1 =
        ⟨db.likes ++ [(uid, cid)], removeReaction uid cid db.dislikes⟩ := by
      unfold likeToggle
      rw [hf]
    have hfind2 : (db.likes ++ [(uid, cid)]).find? (reactKey uid cid) =
        some (uid, cid) := by
      rw [List.find?_append, hf]
      simp [reactKey]
    have h2 : (likeToggle ⟨db.likes ++ [(uid, cid)],
        removeReaction uid cid db.dislikes⟩ uid cid).1 =
        ⟨removeReaction uid cid (db.likes ++ [(uid, cid)]),
          removeReaction uid cid (removeReaction uid cid db.dislikes)⟩ := by
      unfold likeToggle
      rw [hfind2]
    have hsingle : removeReaction uid cid [(uid, cid)] = [] := by
      unfold removeReaction
      simp [reactKey]
    rw [h1, h2, hdisF, hdisF]
    unfold removeReaction
    rw [List.filter_append]
    refine ⟨?_, fun p => Iff.rfl⟩
    intro p
    rw [show List.filter (fun p => !reactKey uid cid p) db.likes =
          removeReaction uid cid db.likes from rfl,
      show List.filter (fun p => !reactKey uid cid p) [(uid, cid)] =
          removeReaction uid cid [(uid, cid)] from rfl,
      hallF, hsingle, List.append_nil]

/-- Toggling dislike twice, from a state with no like on the key, restores
both tables up to membership. -/
theorem dislikeToggle_twice_restores (db : ReactionDB) (uid cid : String)
    (hl : (uid, cid) ∉ db.likes) :
    (∀ p, p ∈ ((dislikeToggle (dislikeToggle db uid cid).1 uid cid).1).likes ↔
       p ∈ db.likes) ∧
    (∀ p, p ∈ ((dislikeToggle (dislikeToggle db uid cid).1 uid cid).1).dislikes ↔
       p ∈ db.dislikes) := by
  have hlikF : removeReaction uid cid db.likes = db.likes :=
    removeReaction_of_not_mem uid cid db.likes hl
  cases hf : db.dislikes.find? (reactKey uid cid) with
  | some q =>
    have hq1 : q ∈ db.dislikes := List.mem_of_find?_eq_some hf
    have hq2 : q = (uid, cid) := (reactKey_eq_iff uid cid q).mp (List.find?_some hf)
    have h1 : (dislikeToggle db uid cid).1 =
        ⟨removeReaction uid cid db.likes, removeReaction uid cid db.dislikes⟩ := by
      unfold dislikeToggle
      rw [hf]
    have h2 : (dislikeToggle ⟨removeReaction uid cid db.likes,
        removeReaction uid cid db.dislikes⟩ uid cid).1 =
        ⟨removeReaction uid cid (removeReaction uid cid db.likes),
          removeReaction uid cid db.dislikes ++ [(uid, cid)]⟩ := by
      unfold dislikeToggle
      rw [find?_removeReaction]
    rw [h1, h2, hlikF, hlikF]
    refine ⟨fun p => Iff.rfl, ?_⟩
    intro p
    rw [List.mem_append]
    constructor
    · rintro (hpf | hps)
      · exact ((mem_removeReaction uid cid db.dislikes p).mp hpf).1
      · have : p = (uid, cid) := by simpa using hps
        rw [this, ← hq2]
        exact hq1
    · intro hp
      by_cases hpe : p = (uid, cid)
      · right
        simp [hpe]
      · left
        rw [mem_removeReaction]
        refine ⟨hp, ?_⟩
        cases hk : reactKey uid cid p with
        | false => rfl
        | true => exact absurd ((reactKey_eq_iff uid cid p).mp hk) hpe
  | none =>
    have hallF : removeReaction uid cid db.dislikes = db.dislikes :=
      removeReaction_of_find?_none uid cid db.dislikes hf
    have h1 : (dislikeToggle db uid cid).1 =
        ⟨removeReaction uid cid db.likes, db.dislikes ++ [(uid, cid)]⟩ := by
      unfold dislikeToggle
      rw [hf]
    have hfind2 : (db.dislikes ++ [(uid, cid)]).find? (reactKey uid cid) =
        some (uid, cid) := by
      rw [List.find?_append, hf]
      simp [reactKey]
    have h2 : (dislikeToggle ⟨removeReaction uid cid db.likes,
        db.dislikes ++ [(uid, cid)]⟩ uid cid).1 =
        ⟨removeReaction uid cid (removeReaction uid cid db.likes),
          removeReaction uid cid (db.dislikes ++ [(uid, cid)])⟩ := by
      unfold dislikeToggle
      rw [hfind2]
    have hsingle : removeReaction uid cid [(uid, cid)] = [] := by
      unfold removeReaction
      simp [reactKey]
    rw [h1, h2, hlikF, hlikF]
    refine ⟨fun p => Iff.rfl, ?_⟩
    intro p
    unfold removeReaction
    rw [List.filter_append]
    rw [show List.filter (fun p => !reactKey uid cid p) db.dislikes =
          removeReaction uid cid db.dislikes from rfl,
      show List.filter (fun p => !reactKey uid cid p) [(uid, cid)] =
          removeReaction uid cid [(uid, cid)] from rfl,
      hallF, hsingle, List.append_nil]

/-- C9: likes and dislikes are mutually exclusive and toggling — any sequence
of like/dislike toggles preserves the invariant that no user holds both a
like and a dislike on the same content, and toggling the same reaction
twice in a row, from a state with no opposite reaction on that key,
restores both tables up to membership. -/
theorem reaction_toggles_spec :
    (∀ (ops : List ReactionOp) (db : ReactionDB), NoBothReactions db →
       NoBothReactions (ops.foldl applyReaction db)) ∧
    (∀ (db : ReactionDB) (uid cid : String), (uid, cid) ∉ db.dislikes →
       (∀ p, p ∈ ((likeToggle (likeToggle db uid cid).1 uid cid).1).likes ↔
          p ∈ db.likes) ∧
       (∀ p, p ∈ ((likeToggle (likeToggle db uid cid).1 uid cid).1).dislikes ↔
          p ∈ db.dislikes)) ∧
    (∀ (db : ReactionDB) (uid cid : String), (uid, cid) ∉ db.likes →
       (∀ p, p ∈ ((dislikeToggle (dislikeToggle db uid cid).1 uid cid).1).likes ↔
          p ∈ db.likes) ∧
       (∀ p, p ∈ ((dislikeToggle (dislikeToggle db uid cid).1 uid cid).1).dislikes ↔
          p ∈ db.dislikes)) := by
  refine ⟨?_, likeToggle_twice_restores, dislikeToggle_twice_restores⟩
  intro ops
  induction ops with
  | nil => exact fun db h => h
  | cons op t ih =>
    intro db h
    rw [List.foldl_cons]
    apply ih
    cases op with
    | like u c => exact likeToggle_noBoth db u c h
    | dislike u c => exact dislikeToggle_noBoth db u c h

/-- Witness for C9: the empty state satisfies the invariant and keeps it under
a like toggle followed by a dislike toggle; a state holding one like and no
dislike is restored by a double like toggle. -/
theorem reaction_toggles_spec_witness :
    NoBothReactions (ReactionDB.mk [] []) ∧
    NoBothReactions
      ([ReactionOp.like "u" "c", ReactionOp.dislike "u" "c"].foldl
        applyReaction ⟨[], []⟩) ∧
    (("u", "c") ∉ (ReactionDB.mk [("u", "c")] []).dislikes ∧
      (∀ p, p ∈ ((likeToggle (likeToggle ⟨[("u", "c")], []⟩ "u" "c").1
            "u" "c").1).likes ↔ p ∈ (ReactionDB.mk [("u", "c")] []).likes) ∧
      (∀ p, p ∈ ((likeToggle (likeToggle ⟨[("u", "c")], []⟩ "u" "c").1
            "u" "c").1).dislikes ↔
          p ∈ (ReactionDB.mk [("u", "c")] []).dislikes)) :=
  ⟨fun p hp => absurd hp (List.not_mem_nil p),
   reaction_toggles_spec.1 [ReactionOp.like "u" "c", ReactionOp.dislike "u" "c"]
     ⟨[], []⟩ (fun p hp => absurd hp (List.not_mem_nil p)),
   ⟨List.not_mem_nil _,
    (reaction_toggles_spec.2.1 ⟨[("u", "c")], []⟩ "u" "c"
      (List.not_mem_nil _)).1,
    (reaction_toggles_spec.2.1 ⟨[("u", "c")], []⟩ "u" "c"
      (List.not_mem_nil _)).2⟩⟩

/-- Row of the `quizzes` table (generated row id and timestamp omitted; they
play no role in the modelled behaviour). -/
structure QuizRow where
  question : List Char
  options : List (List Char)
  answer : Int
  hint : Option (List Char)
  materialId : String
  deriving Repr, DecidableEq

/-- Database state seen by the quiz-generation handler. -/
structure AiDB where
  materials : List Material
  quizzes : List QuizRow
  deriving Repr, DecidableEq

/-- JavaScript `q.hint || null` on an optional string: a missing or empty hint
is stored as `null`. -/
def hintOrNull (h : Option (List Char)) : Option (List Char) :=
  match h with
  | none => none
  | some t => if t = [] then none else some t

/-- Embedding of `POST /api/ai/:materialId/quiz` (src/src/routes/ai.ts,
lines 37-101).  The generated questions are the parameter `generated` (the
value returned by `generateQuiz`).  When the body carries a non-empty
`materialIds` array, those ids are the ones fetched and ownership-filtered;
otherwise the route parameter is.  On success the handler deletes every quiz
row of the route-parameter material and appends one row per generated
question, linked to the route-parameter material. -/
def quizPost (db : AiDB) (uid routeMaterialId : String)
    (bodyMaterialIds : List String) (generated : List QuizQuestion) :
    Nat × AiDB :=
  let targetMaterialIds :=
    if bodyMaterialIds.length > 0 then bodyMaterialIds else [routeMaterialId]
  let materials := db.materials.filter
    (fun m => targetMaterialIds.contains m.id && m.userId == uid)
  if materials.length = 0 then (400, db)
  else if generated.length = 0 then (500, db)
  else
    let remaining := db.quizzes.filter (fun q => !(q.materialId == routeMaterialId))
    let created := generated.map (fun q =>
      QuizRow.mk q.question q.options q.answer (hintOrNull q.hint) routeMaterialId)
    (200, { db with quizzes := remaining ++ created })

/-- C5 failing input: user `alice` owns material `m1`; material `m2` belongs
to `bob` and has one saved quiz row.  Alice calls the quiz endpoint with
route parameter `m2` and body `materialIds = ["m1"]`.  The ownership filter
only inspects the body ids, so the request succeeds (status 200), deletes
bob's saved quiz row on `m2`, and creates a new quiz row linked to `m2`,
although `m2.userId ≠ "alice"` — a database mutation on a material the
requester does not own. -/
theorem quizPost_cross_user_mutation :
    (quizPost
        ⟨[⟨"m1", "alice", "Mine", none, some "a", "document", false, none⟩,
          ⟨"m2", "bob", "Victim", none, some "v", "document", false, none⟩],
         [⟨"old question".toList, [], 0, none, "m2"⟩]⟩
        "alice" "m2" ["m1"]
        [⟨"new question".toList, [], 0, none, none⟩]).1 = 200 ∧
    (⟨"m2", "bob", "Victim", none, some "v", "document", false, none⟩ :
        Material).userId ≠ "alice" ∧
    (⟨"old question".toList, [], 0, none, "m2"⟩ : QuizRow) ∉
      (quizPost
        ⟨[⟨"m1", "alice", "Mine", none, some "a", "document", false, none⟩,
          ⟨"m2", "bob", "Victim", none, some "v", "document", false, none⟩],
         [⟨"old question".toList, [], 0, none, "m2"⟩]⟩
        "alice" "m2" ["m1"]
        [⟨"new question".toList, [], 0, none, none⟩]).2.quizzes ∧
    (⟨"new question".toList, [], 0, none, "m2"⟩ : QuizRow) ∈
      (quizPost
        ⟨[⟨"m1", "alice", "Mine", none, some "a", "document", false, none⟩,
          ⟨"m2", "bob", "Victim", none, some "v", "document", false, none⟩],
         [⟨"old question".toList, [], 0, none, "m2"⟩]⟩
        "alice" "m2" ["m1"]
        [⟨"new question".toList, [], 0, none, none⟩]).2.quizzes := by decide

/-- The mimetype allowlist of the upload middleware
(src/src/routes/materials.ts, lines 43-50). -/
def ALLOWED_MIMETYPES : List String :=
  ["application/pdf",
   "text/plain",
   "text/markdown",
   "application/vnd.openxmlformats-officedocument.wordprocessingml.document",
   "application/msword"]

/-- The `limits.fileSize` bound of the upload middleware: `10 * 1024 * 1024`
bytes. -/
def FILE_SIZE_LIMIT : Nat := 10 * 1024 * 1024

/-- The mimetype and byte size of an uploaded file, the two attributes the
upload middleware inspects. -/
structure UploadFile where
  mimetype : String
  size : Nat

/-- Behaviour of the configured `multer` middleware
(src/src/routes/materials.ts, lines 52-62): the `fileFilter` callback
accepts exactly the allowlisted mimetypes, and `limits.fileSize` aborts any
upload larger than 10 MB; a file passes the middleware iff both hold. -/
def uploadAccepts (f : UploadFile) : Bool :=
  ALLOWED_MIMETYPES.contains f.mimetype && f.size ≤ FILE_SIZE_LIMIT

/-- The upload middleware runs before the `POST /api/materials` handler: on a
rejected file the handler (abstracted as `handler`) never runs, so the
materials table is unchanged. -/
def uploadGate (handler : List Material → List Material)
    (materials : List Material) (f : UploadFile) : List Material :=
  if uploadAccepts f then handler materials else materials

/-- C6: the upload middleware accepts a file iff its mimetype is PDF, Word
(.docx or legacy .doc), plain text or markdown, and its size is at most
10 MB (10485760 bytes); a rejected file reaches no handler, so no material
is created for it. -/
theorem upload_filter_spec (f : UploadFile) :
    (uploadAccepts f = true ↔
      ((f.mimetype = "application/pdf" ∨
        f.mimetype =
          "application/vnd.openxmlformats-officedocument.wordprocessingml.document" ∨
        f.mimetype = "application/msword" ∨
        f.mimetype = "text/plain" ∨
        f.mimetype = "text/markdown") ∧ f.size ≤ 10485760)) ∧
    (∀ (handler : List Material → List Material) (materials : List Material),
       uploadAccepts f = false → uploadGate handler materials f = materials) := by
  constructor
  · simp [uploadAccepts, ALLOWED_MIMETYPES, FILE_SIZE_LIMIT]
    intro _
    tauto
  · intro handler materials h
    unfold uploadGate
    rw [h]
    simp

/-- Witness for C6: a PNG upload of 5 bytes is rejected and creates nothing;
the iff is exercised at the same file. -/
theorem upload_filter_spec_witness :
    (uploadAccepts ⟨"image/png", 5⟩ = true ↔
      ((UploadFile.mk "image/png" 5).mimetype = "application/pdf" ∨
        (UploadFile.mk "image/png" 5).mimetype =
          "application/vnd.openxmlformats-officedocument.wordprocessingml.document" ∨
        (UploadFile.mk "image/png" 5).mimetype = "application/msword" ∨
        (UploadFile.mk "image/png" 5).mimetype = "text/plain" ∨
        (UploadFile.mk "image/png" 5).mimetype = "text/markdown") ∧
        (UploadFile.mk "image/png" 5).size ≤ 10485760) ∧
    (uploadAccepts ⟨"image/png", 5⟩ = false ∧
      uploadGate (fun l => l ++
          [⟨"mX", "u1", "T", none, some "c", "image", false, none⟩])
        [] ⟨"image/png", 5⟩ = []) :=
  ⟨(upload_filter_spec ⟨"image/png", 5⟩).1,
   ⟨by decide,
    (upload_filter_spec ⟨"image/png", 5⟩).2
      (fun l => l ++ [⟨"mX", "u1", "T", none, some "c", "image", false, none⟩])
      [] (by decide)⟩⟩

end LearnLens
